import Mathlib

/-!
Verification of the utility layer in src/utils/utils.py: the pose visualizer
(visualize) and the aspect-preserving resizer (keep_aspect_ratio_resizer),
together with the constant edge color table KEYPOINT_EDGE_INDS_TO_COLOR.

Modelling conventions:
- numpy images are records of height, width and a pixel lookup function
  (row, column) into an RGB triple.
- Python float arithmetic (confidence scores, the resize scale factor) is
  modelled as exact rational arithmetic over ℚ.
- cv2.resize interpolates pixel values externally; only its shape contract
  (cv2.resize(img, (w, h)) returns an image of width w and height h) is used
  by any claim, so the resizer is parameterised over a resize function
  satisfying ResizeSpec, with a concrete instance resizeModel for evaluation.
- cv2.circle and cv2.line rasterize externally; visualize is parameterised
  over their image effect, and visualizeTrace records the calls the source
  issues, in order, with their exact arguments.
-/

namespace PoseUtils

/-- RGB pixel value, one triple of channel intensities. -/
abbrev Pixel : Type := Nat × Nat × Nat

/-- In-memory RGB image: a numpy ndarray of shape (height, width, 3),
addressed by row and column. -/
structure Image where
  height : Nat
  width : Nat
  pixel : Nat → Nat → Pixel

instance : Inhabited Image := ⟨⟨0, 0, fun _ _ => (0, 0, 0)⟩⟩

/-- Modelled from the spec: the Keypoint value of the repository module data
(imported by src/utils/utils.py but not present under src): a 2D integer pixel
coordinate (x, y) and a confidence score (a Python float, modelled as ℚ). -/
structure Keypoint where
  coordinate : Int × Int
  score : ℚ

instance : Inhabited Keypoint := ⟨⟨(0, 0), 0⟩⟩

/-- Modelled from the spec: the Person value of the repository module data
(imported by src/utils/utils.py but not present under src): an ordered sequence
of 17 keypoints, an overall confidence score, and a bounding box that the
drawing logic never uses. -/
structure Person where
  keypoints : List Keypoint
  score : ℚ
  bounding_box : (Int × Int) × (Int × Int)

/-- The dict KEYPOINT_EDGE_INDS_TO_COLOR of src/utils/utils.py lines 9-28, as
an association list in the declaration (dict insertion) order. -/
def KEYPOINT_EDGE_INDS_TO_COLOR : List ((Nat × Nat) × Pixel) :=
  [((0, 1), (147, 20, 255)), ((0, 2), (255, 255, 0)), ((1, 3), (147, 20, 255)),
   ((2, 4), (255, 255, 0)), ((0, 5), (147, 20, 255)), ((0, 6), (255, 255, 0)),
   ((5, 7), (147, 20, 255)), ((7, 9), (147, 20, 255)), ((6, 8), (255, 255, 0)),
   ((8, 10), (255, 255, 0)), ((5, 6), (0, 255, 255)), ((5, 11), (147, 20, 255)),
   ((6, 12), (255, 255, 0)), ((11, 12), (0, 255, 255)), ((11, 13), (147, 20, 255)),
   ((13, 15), (147, 20, 255)), ((12, 14), (255, 255, 0)), ((14, 16), (255, 255, 0))]

/-- One OpenCV drawing call issued by visualize: cv2.circle with center,
radius, color and thickness, or cv2.line with two endpoints, color and
thickness. -/
inductive DrawCmd where
  | circle : Int × Int → Nat → Pixel → Nat → DrawCmd
  | line : Int × Int → Int × Int → Pixel → Nat → DrawCmd
deriving DecidableEq

/-- Python sequence indexing keypoints[i] as used on src lines 63-69; callers
guarantee 17 keypoints, so the indices 0-16 of the edge table are in range
(an out-of-range index would raise IndexError in Python; the default keypoint
stands in for that never-taken case). -/
def kpAt (ks : List Keypoint) (i : Nat) : Keypoint := ks.getD i default

/-- Trace of the drawing calls issued by visualize (src/utils/utils.py lines
48-72), in order: for each person, skip everything when person.score <
instance_threshold; otherwise one cv2.circle of radius 2 and thickness 4 per
keypoint whose score is at least keypoint_threshold, then one cv2.line of
thickness 2 per edge of the table whose two endpoint scores strictly exceed
keypoint_threshold. -/
def visualizeTrace (list_persons : List Person) (keypoint_color : Pixel)
    (keypoint_threshold instance_threshold : ℚ) : List DrawCmd :=
  list_persons.flatMap fun person =>
    if person.score < instance_threshold then []
    else
      (person.keypoints.flatMap fun k =>
        if keypoint_threshold ≤ k.score then
          [DrawCmd.circle k.coordinate 2 keypoint_color 4]
        else []) ++
      (KEYPOINT_EDGE_INDS_TO_COLOR.flatMap fun ec =>
        if keypoint_threshold < (kpAt person.keypoints ec.1.1).score ∧
            keypoint_threshold < (kpAt person.keypoints ec.1.2).score then
          [DrawCmd.line (kpAt person.keypoints ec.1.1).coordinate
            (kpAt person.keypoints ec.1.2).coordinate ec.2 2]
        else [])

/-- Image effect of visualize (src/utils/utils.py lines 31-74): the image is
threaded through the cv2.circle and cv2.line rasterizers (passed in as
circleFn and lineFn, since OpenCV rasterization is external to this code),
guarded by the skip test of the source and threshold comparisons, and the final
image is returned as the source returns its image argument. -/
def visualize (circleFn : Image → Int × Int → Nat → Pixel → Nat → Image)
    (lineFn : Image → Int × Int → Int × Int → Pixel → Nat → Image)
    (image : Image) (list_persons : List Person) (keypoint_color : Pixel)
    (keypoint_threshold instance_threshold : ℚ) : Image :=
  list_persons.foldl (fun img person =>
    if person.score < instance_threshold then img
    else
      KEYPOINT_EDGE_INDS_TO_COLOR.foldl (fun im ec =>
        if keypoint_threshold < (kpAt person.keypoints ec.1.1).score ∧
            keypoint_threshold < (kpAt person.keypoints ec.1.2).score then
          lineFn im (kpAt person.keypoints ec.1.1).coordinate
            (kpAt person.keypoints ec.1.2).coordinate ec.2 2
        else im)
        (person.keypoints.foldl (fun im k =>
          if keypoint_threshold ≤ k.score then
            circleFn im k.coordinate 2 keypoint_color 4
          else im) img))
    image

/-- Concrete stand-in for the cv2.circle rasterizer: paints color on every
pixel within Euclidean distance radius + thickness of the center. Used only to
instantiate theorems at concrete inputs; no claim depends on the exact set of
painted pixels. -/
def drawCircleModel (img : Image) (center : Int × Int) (radius : Nat)
    (color : Pixel) (thickness : Nat) : Image :=
  ⟨img.height, img.width, fun r c =>
    if ((r : Int) - center.2) ^ 2 + ((c : Int) - center.1) ^ 2 ≤
        ((radius : Int) + (thickness : Int)) ^ 2 then color
    else img.pixel r c⟩

/-- Concrete stand-in for the cv2.line rasterizer: paints color on every pixel
of the bounding box of the endpoints lying within thickness of the supporting
line of the segment. Used only to instantiate theorems at concrete inputs. -/
def drawLineModel (img : Image) (p1 p2 : Int × Int) (color : Pixel)
    (thickness : Nat) : Image :=
  ⟨img.height, img.width, fun r c =>
    if min p1.1 p2.1 ≤ (c : Int) ∧ (c : Int) ≤ max p1.1 p2.1 ∧
        min p1.2 p2.2 ≤ (r : Int) ∧ (r : Int) ≤ max p1.2 p2.2 ∧
        ((p2.1 - p1.1) * ((r : Int) - p1.2) - (p2.2 - p1.2) * ((c : Int) - p1.1)) ^ 2 ≤
          (thickness : Int) ^ 2 * ((p2.1 - p1.1) ^ 2 + (p2.2 - p1.2) ^ 2) then color
    else img.pixel r c⟩

/-- Python math.ceil(a * scale) with scale = float(t / b) (src lines 96-98 and
102-104); float arithmetic is modelled as exact rational arithmetic. -/
def ceilScale (a b t : Nat) : Nat := Nat.ceil ((a : ℚ) * ((t : ℚ) / (b : ℚ)))

/-- Python int(math.ceil(n / 32) * 32) (src lines 100 and 106); division by 32
is exact in floating point, so this is the exact next multiple of 32 at or
above n. -/
def roundUp32 (n : Nat) : Nat := Nat.ceil ((n : ℚ) / 32) * 32

/-- cv2.copyMakeBorder with BORDER_CONSTANT and the default zero (black)
border value (src lines 112-119): the source content sits at offset
(top, left) and every border pixel is zero. -/
def copyMakeBorder (img : Image) (top bottom left right : Nat) : Image :=
  ⟨img.height + top + bottom, img.width + left + right, fun r c =>
    if top ≤ r ∧ r < top + img.height ∧ left ≤ c ∧ c < left + img.width then
      img.pixel (r - top) (c - left)
    else (0, 0, 0)⟩

/-- Shape contract of cv2.resize: cv2.resize(img, (w, h)) returns an image of
width w and height h. The claims about keep_aspect_ratio_resizer depend only
on this contract, not on the interpolated pixel values. -/
def ResizeSpec (resize : Image → Nat → Nat → Image) : Prop :=
  ∀ img w h, (resize img w h).height = h ∧ (resize img w h).width = w

/-- Branch of keep_aspect_ratio_resizer choosing scale and resize (src lines
94-106): when height > width the height becomes target_size, the width is
scaled with ceiling and later rounded up to a multiple of 32; otherwise the
symmetric case. Returns the cv2.resize result together with
(target_height, target_width). -/
def resizeStep (resize : Image → Nat → Nat → Image) (image : Image)
    (target_size : Nat) : Image × Nat × Nat :=
  if image.height > image.width then
    (resize image (ceilScale image.width image.height target_size) target_size,
      target_size, roundUp32 (ceilScale image.width image.height target_size))
  else
    (resize image target_size (ceilScale image.height image.width target_size),
      roundUp32 (ceilScale image.height image.width target_size), target_size)

/-- keep_aspect_ratio_resizer from src/utils/utils.py lines 77-121: resize so
the longer side matches target_size (resizeStep), then pad the bottom by
target_height - resized height and the right by target_width - resized width
with cv2.copyMakeBorder (top and left padding are literal zeros in the source),
and return the padded image together with (target_height, target_width). -/
def keep_aspect_ratio_resizer (resize : Image → Nat → Nat → Image)
    (image : Image) (target_size : Nat) : Image × Nat × Nat :=
  let s := resizeStep resize image target_size
  (copyMakeBorder s.1 0 (s.2.1 - s.1.height) 0 (s.2.2 - s.1.width),
    s.2.1, s.2.2)

/-- Concrete instance of the cv2.resize shape contract: nearest-neighbour
sampling. Used to instantiate theorems at concrete inputs. -/
def resizeModel (img : Image) (w h : Nat) : Image :=
  ⟨h, w, fun r c => img.pixel (r * img.height / h) (c * img.width / w)⟩

theorem resizeModel_spec : ResizeSpec resizeModel := fun _ _ _ => ⟨rfl, rfl⟩

/-- Heap of numpy buffers, addressed by allocation index. -/
abbrev Heap : Type := List Image

/-- Buffer read at an address. -/
def heapGet (h : Heap) (a : Nat) : Image := h.getD a default

/-- Fresh allocation, as cv2.resize and cv2.copyMakeBorder perform: both
return newly allocated arrays and never write into their source array. -/
def heapAlloc (h : Heap) (img : Image) : Heap × Nat := (h ++ [img], h.length)

/-- Allocation-level model of keep_aspect_ratio_resizer: the caller passes the
address of its buffer; cv2.resize (src line 99 or 105) allocates a fresh
buffer, cv2.copyMakeBorder (src line 112) allocates another, and the Python
local image is merely rebound to each new buffer, so no existing buffer is
ever written. Returns the final heap, the result address, and the size
tuple. -/
def keep_aspect_ratio_resizer_heap (resize : Image → Nat → Nat → Image)
    (h : Heap) (a : Nat) (target_size : Nat) : Heap × Nat × Nat × Nat :=
  let image := heapGet h a
  let s := resizeStep resize image target_size
  let alloc1 := heapAlloc h s.1
  let resized := heapGet alloc1.1 alloc1.2
  let alloc2 := heapAlloc alloc1.1
    (copyMakeBorder resized 0 (s.2.1 - resized.height) 0 (s.2.2 - resized.width))
  (alloc2.1, alloc2.2, s.2.1, s.2.2)

/-- All-black 1 by 1 test image. -/
def testImage1 : Image := ⟨1, 1, fun _ _ => (0, 0, 0)⟩

/-- All-black 2 by 1 (height by width) test image. -/
def img2x1 : Image := ⟨2, 1, fun _ _ => (0, 0, 0)⟩

/-- All-black 100 by 200 (height by width) test image, the concrete scenario
of the spec. -/
def img100x200 : Image := ⟨100, 200, fun _ _ => (0, 0, 0)⟩

/-- Test keypoint constructor. -/
def kp (x y : Int) (s : ℚ) : Keypoint := ⟨(x, y), s⟩

/-- Test person with 17 keypoints: keypoints 0 and 1 score exactly 1/20, the
rest score 0; overall score 1/2. -/
def testPerson : Person :=
  ⟨[kp 0 0 (1/20), kp 1 1 (1/20), kp 2 2 0, kp 3 3 0, kp 4 4 0, kp 5 5 0,
    kp 6 6 0, kp 7 7 0, kp 8 8 0, kp 9 9 0, kp 10 10 0, kp 11 11 0,
    kp 12 12 0, kp 13 13 0, kp 14 14 0, kp 15 15 0, kp 16 16 0],
   1/2, ((0, 0), (16, 16))⟩

/-- Test person whose overall score 1/20 is below the default instance
threshold 1/10. -/
def lowPerson : Person := ⟨[kp 0 0 1], 1/20, ((0, 0), (0, 0))⟩

/-- Ceiling of a rational n / b as natural ceiling division. -/
lemma natCeil_natDiv (n b : Nat) (hb : 0 < b) :
    Nat.ceil ((n : ℚ) / (b : ℚ)) = (n + b - 1) / b := by
  have hbq : (0 : ℚ) < (b : ℚ) := by exact_mod_cast hb
  apply le_antisymm
  · rw [Nat.ceil_le, div_le_iff₀ hbq]
    have h1 := Nat.div_add_mod (n + b - 1) b
    have h2 := Nat.mod_lt (n + b - 1) hb
    have h3 : n ≤ (n + b - 1) / b * b := by
      rw [mul_comm]; omega
    exact_mod_cast h3
  · have hc : (n : ℚ) / (b : ℚ) ≤ (Nat.ceil ((n : ℚ) / (b : ℚ)) : ℚ) := Nat.le_ceil _
    rw [div_le_iff₀ hbq] at hc
    have hn : n ≤ Nat.ceil ((n : ℚ) / (b : ℚ)) * b := by exact_mod_cast hc
    calc (n + b - 1) / b ≤ (b * Nat.ceil ((n : ℚ) / (b : ℚ)) + (b - 1)) / b := by
          apply Nat.div_le_div_right
          rw [mul_comm]
          omega
      _ = Nat.ceil ((n : ℚ) / (b : ℚ)) + (b - 1) / b := Nat.mul_add_div hb _ _
      _ = Nat.ceil ((n : ℚ) / (b : ℚ)) := by
          rw [Nat.div_eq_of_lt (by omega), Nat.add_zero]

/-- The scaled dimension is the exact rational ceiling of a * t / b. -/
lemma ceilScale_eq_ceilDiv (a b t : Nat) :
    ceilScale a b t = Nat.ceil (((a * t : Nat) : ℚ) / (b : ℚ)) := by
  unfold ceilScale
  congr 1
  push_cast
  ring

/-- Natural-arithmetic evaluation of ceilScale. -/
lemma ceilScale_eq (a b t : Nat) (hb : 0 < b) :
    ceilScale a b t = (a * t + b - 1) / b := by
  rw [ceilScale_eq_ceilDiv, natCeil_natDiv _ _ hb]

/-- Natural-arithmetic evaluation of roundUp32. -/
lemma roundUp32_eq (n : Nat) : roundUp32 n = (n + 31) / 32 * 32 := by
  unfold roundUp32
  rw [show ((32 : ℚ)) = ((32 : Nat) : ℚ) by norm_num, natCeil_natDiv n 32 (by norm_num)]
  omega

lemma le_roundUp32 (n : Nat) : n ≤ roundUp32 n := by
  rw [roundUp32_eq]; omega

lemma dvd_roundUp32 (n : Nat) : 32 ∣ roundUp32 n := dvd_mul_left 32 _

lemma roundUp32_min (n m : Nat) (h32 : 32 ∣ m) (hnm : n ≤ m) : roundUp32 n ≤ m := by
  obtain ⟨k, rfl⟩ := h32
  rw [roundUp32_eq]; omega

/-- Conditionally emitting one element per list entry is filtering then
mapping. -/
lemma flatMap_if_singleton {α β : Type} (l : List α) (p : α → Prop)
    [DecidablePred p] (f : α → β) :
    (l.flatMap fun a => if p a then [f a] else []) =
      (l.filter fun a => decide (p a)).map f := by
  induction l with
  | nil => rfl
  | cons a l ih =>
    by_cases h : p a <;> simp [List.filter_cons, h, ih]

/-- First components of keep_aspect_ratio_resizer, written through
resizeStep. -/
lemma keep_fst (resize : Image → Nat → Nat → Image) (image : Image) (t : Nat) :
    (keep_aspect_ratio_resizer resize image t).1 =
      copyMakeBorder (resizeStep resize image t).1 0
        ((resizeStep resize image t).2.1 - (resizeStep resize image t).1.height) 0
        ((resizeStep resize image t).2.2 - (resizeStep resize image t).1.width) := rfl

/-- The returned size tuple is the one computed by resizeStep. -/
lemma keep_snd (resize : Image → Nat → Nat → Image) (image : Image) (t : Nat) :
    (keep_aspect_ratio_resizer resize image t).2 = (resizeStep resize image t).2 := rfl

/-- The resized image never exceeds the padding targets in either dimension. -/
lemma resizeStep_le (resize : Image → Nat → Nat → Image) (hr : ResizeSpec resize)
    (image : Image) (t : Nat) :
    (resizeStep resize image t).1.height ≤ (resizeStep resize image t).2.1 ∧
    (resizeStep resize image t).1.width ≤ (resizeStep resize image t).2.2 := by
  unfold resizeStep
  by_cases hbr : image.height > image.width
  · rw [if_pos hbr]
    refine ⟨le_of_eq (hr image _ t).1, ?_⟩
    rw [(hr image _ t).2]
    exact le_roundUp32 _
  · rw [if_neg hbr]
    refine ⟨?_, le_of_eq (hr image t _).2⟩
    rw [(hr image t _).1]
    exact le_roundUp32 _

/-- Output height of the padded image equals target_height. -/
lemma keep_height (resize : Image → Nat → Nat → Image) (hr : ResizeSpec resize)
    (image : Image) (t : Nat) :
    (keep_aspect_ratio_resizer resize image t).1.height =
      (resizeStep resize image t).2.1 := by
  rw [keep_fst]
  have h := (resizeStep_le resize hr image t).1
  show (resizeStep resize image t).1.height + 0 +
    ((resizeStep resize image t).2.1 - (resizeStep resize image t).1.height) = _
  omega

/-- Output width of the padded image equals target_width. -/
lemma keep_width (resize : Image → Nat → Nat → Image) (hr : ResizeSpec resize)
    (image : Image) (t : Nat) :
    (keep_aspect_ratio_resizer resize image t).1.width =
      (resizeStep resize image t).2.2 := by
  rw [keep_fst]
  have h := (resizeStep_le resize hr image t).2
  show (resizeStep resize image t).1.width + 0 +
    ((resizeStep resize image t).2.2 - (resizeStep resize image t).1.width) = _
  omega

/-- Reading below the allocation point is unchanged by an allocation. -/
lemma heapGet_append_lt (h : Heap) (img : Image) (a : Nat) (ha : a < h.length) :
    heapGet (h ++ [img]) a = heapGet h a := by
  unfold heapGet
  rw [List.getD_eq_getElem?_getD, List.getD_eq_getElem?_getD,
    List.getElem?_append, if_pos ha]

/-- Reading the freshly allocated address yields the allocated buffer. -/
lemma heapGet_append_len (h : Heap) (img : Image) :
    heapGet (h ++ [img]) h.length = img := by
  unfold heapGet
  rw [List.getD_eq_getElem?_getD, List.getElem?_append, if_neg (lt_irrefl _)]
  simp

/-- Concrete evaluation: a 1 by 1 image at target_size 1 takes the else branch
and targets (32, 1). -/
lemma resizeStep_testImage1 :
    resizeStep resizeModel testImage1 1 = (resizeModel testImage1 1 1, 32, 1) := by
  simp [resizeStep, testImage1, ceilScale_eq, roundUp32_eq]

/-- Concrete evaluation of the full resizer on the 1 by 1 image. -/
lemma keep_testImage1 :
    keep_aspect_ratio_resizer resizeModel testImage1 1 =
      (copyMakeBorder (resizeModel testImage1 1 1) 0 31 0 0, 32, 1) := by
  unfold keep_aspect_ratio_resizer
  rw [resizeStep_testImage1]
  rfl

/-- Concrete evaluation: a 2 by 1 image at target_size 64 takes the
height > width branch and targets (64, 32). -/
lemma resizeStep_img2x1 :
    resizeStep resizeModel img2x1 64 = (resizeModel img2x1 32 64, 64, 32) := by
  simp [resizeStep, img2x1, ceilScale_eq, roundUp32_eq]

/-- Concrete evaluation: the 100 by 200 image at target_size 256 takes the
else branch, is resized to 128 by 256 and targets (128, 256). -/
lemma resizeStep_img100x200 :
    resizeStep resizeModel img100x200 256 = (resizeModel img100x200 256 128, 128, 256) := by
  simp [resizeStep, img100x200, ceilScale_eq, roundUp32_eq]

/-- Concrete evaluation of the full resizer on the 100 by 200 image. -/
lemma keep_img100x200 :
    keep_aspect_ratio_resizer resizeModel img100x200 256 =
      (copyMakeBorder (resizeModel img100x200 256 128) 0 0 0 0, 128, 256) := by
  unfold keep_aspect_ratio_resizer
  rw [resizeStep_img100x200]
  rfl

/-- C1 counterexample: with target_size 1 (positive, as the claim allows) on
the 1 by 1 image, the returned image has width 1, which is not a multiple of
32, so the claim as stated is false. -/
theorem resizer_mult32_counterexample :
    0 < testImage1.height ∧ 0 < testImage1.width ∧ (0 : Nat) < 1 ∧
    ¬ 32 ∣ (keep_aspect_ratio_resizer resizeModel testImage1 1).1.width := by
  refine ⟨by decide, by decide, by decide, ?_⟩
  have hw : (keep_aspect_ratio_resizer resizeModel testImage1 1).1.width = 1 := by
    rw [keep_testImage1]
    rfl
  rw [hw]
  decide

/-- C1 (amended): when target_size is additionally a multiple of 32, both
dimensions of the image returned by keep_aspect_ratio_resizer are exact
multiples of 32 and they equal the returned (target_height, target_width)
tuple. -/
theorem resizer_dims_mult32_of_dvd (resize : Image → Nat → Nat → Image)
    (hr : ResizeSpec resize) (image : Image) (t : Nat)
    (_hh : 0 < image.height) (_hw : 0 < image.width) (_ht : 0 < t) (h32 : 32 ∣ t) :
    32 ∣ (keep_aspect_ratio_resizer resize image t).1.height ∧
    32 ∣ (keep_aspect_ratio_resizer resize image t).1.width ∧
    (keep_aspect_ratio_resizer resize image t).1.height =
      (keep_aspect_ratio_resizer resize image t).2.1 ∧
    (keep_aspect_ratio_resizer resize image t).1.width =
      (keep_aspect_ratio_resizer resize image t).2.2 := by
  have hT : 32 ∣ (resizeStep resize image t).2.1 ∧
      32 ∣ (resizeStep resize image t).2.2 := by
    unfold resizeStep
    by_cases hbr : image.height > image.width
    · rw [if_pos hbr]
      exact ⟨h32, dvd_roundUp32 _⟩
    · rw [if_neg hbr]
      exact ⟨dvd_roundUp32 _, h32⟩
  rw [keep_height resize hr, keep_width resize hr, keep_snd]
  exact ⟨hT.1, hT.2, rfl, rfl⟩

/-- Witness for the amended C1 at the 100 by 200 image with target_size 256. -/
theorem resizer_dims_mult32_of_dvd_witness :
    0 < img100x200.height ∧ 0 < img100x200.width ∧ (0 : Nat) < 256 ∧
    (32 : Nat) ∣ 256 ∧
    32 ∣ (keep_aspect_ratio_resizer resizeModel img100x200 256).1.height ∧
    32 ∣ (keep_aspect_ratio_resizer resizeModel img100x200 256).1.width := by
  have h := resizer_dims_mult32_of_dvd resizeModel resizeModel_spec img100x200 256
    (by decide) (by decide) (by decide) (by decide)
  exact ⟨by decide, by decide, by decide, by decide, h.1, h.2.1⟩

/-- C2 counterexample: the claim quantifies over height ≥ width, but on the
1 by 1 image (height = width) with target_size 1 the code takes the else
branch and returns target_height 32, not target_size 1. -/
theorem resizer_square_target_height_counterexample :
    testImage1.height ≥ testImage1.width ∧ (0 : Nat) < 1 ∧
    (keep_aspect_ratio_resizer resizeModel testImage1 1).2.1 ≠ 1 := by
  refine ⟨by decide, by decide, ?_⟩
  rw [keep_snd, resizeStep_testImage1]
  decide

/-- C2 (amended): for every image with height strictly greater than width and
every target_size > 0, the returned target_height is target_size and the
returned target_width is the least multiple of 32 at or above
ceil(width * target_size / height). -/
theorem resizer_tall_targets (resize : Image → Nat → Nat → Image)
    (image : Image) (t : Nat) (hhw : image.width < image.height) (_ht : 0 < t) :
    (keep_aspect_ratio_resizer resize image t).2.1 = t ∧
    32 ∣ (keep_aspect_ratio_resizer resize image t).2.2 ∧
    Nat.ceil (((image.width * t : Nat) : ℚ) / (image.height : ℚ)) ≤
      (keep_aspect_ratio_resizer resize image t).2.2 ∧
    ∀ m, 32 ∣ m →
      Nat.ceil (((image.width * t : Nat) : ℚ) / (image.height : ℚ)) ≤ m →
      (keep_aspect_ratio_resizer resize image t).2.2 ≤ m := by
  rw [keep_snd]
  unfold resizeStep
  rw [if_pos hhw]
  refine ⟨rfl, dvd_roundUp32 _, ?_, ?_⟩
  · rw [← ceilScale_eq_ceilDiv]
    exact le_roundUp32 _
  · intro m hm hle
    rw [← ceilScale_eq_ceilDiv] at hle
    exact roundUp32_min _ m hm hle

/-- Witness for the amended C2 at the 2 by 1 image with target_size 64. -/
theorem resizer_tall_targets_witness :
    img2x1.width < img2x1.height ∧ (0 : Nat) < 64 ∧
    (keep_aspect_ratio_resizer resizeModel img2x1 64).2.1 = 64 ∧
    (keep_aspect_ratio_resizer resizeModel img2x1 64).2.2 = 32 := by
  refine ⟨by decide, by decide,
    (resizer_tall_targets resizeModel img2x1 64 (by decide) (by decide)).1, ?_⟩
  rw [keep_snd, resizeStep_img2x1]

/-- C10: on valid inputs the padding amounts are non-negative: the resized
image is no taller than target_height and no wider than target_width, so the
two subtractions feeding cv2.copyMakeBorder never go negative. -/
theorem resizer_padding_nonneg (resize : Image → Nat → Nat → Image)
    (hr : ResizeSpec resize) (image : Image) (t : Nat)
    (_hh : 0 < image.height) (_hw : 0 < image.width) (_ht : 0 < t) :
    (resizeStep resize image t).1.height ≤ (resizeStep resize image t).2.1 ∧
    (resizeStep resize image t).1.width ≤ (resizeStep resize image t).2.2 :=
  resizeStep_le resize hr image t

/-- Witness for C10 at the 1 by 1 image with target_size 1. -/
theorem resizer_padding_nonneg_witness :
    0 < testImage1.height ∧ 0 < testImage1.width ∧ (0 : Nat) < 1 ∧
    (resizeStep resizeModel testImage1 1).1.height ≤
      (resizeStep resizeModel testImage1 1).2.1 ∧
    (resizeStep resizeModel testImage1 1).1.width ≤
      (resizeStep resizeModel testImage1 1).2.2 := by
  have h := resizer_padding_nonneg resizeModel resizeModel_spec testImage1 1
    (by decide) (by decide) (by decide)
  exact ⟨by decide, by decide, by decide, h.1, h.2⟩

/-- C6: the concrete scenario of the spec: a 100 by 200 image at target_size 256
takes the else (width longer) branch with scale 256/200 = 1.28, is resized to
height 128 and width 256, receives zero bottom and right padding, and comes
back with shape 128 by 256 and tuple (128, 256). -/
theorem resizer_scenario_100x200 :
    ¬ img100x200.height > img100x200.width ∧
    (256 : ℚ) / (img100x200.width : ℚ) = 1.28 ∧
    ceilScale img100x200.height img100x200.width 256 = 128 ∧
    resizeStep resizeModel img100x200 256 = (resizeModel img100x200 256 128, 128, 256) ∧
    (128 : Nat) - (resizeModel img100x200 256 128).height = 0 ∧
    (256 : Nat) - (resizeModel img100x200 256 128).width = 0 ∧
    (keep_aspect_ratio_resizer resizeModel img100x200 256).1.height = 128 ∧
    (keep_aspect_ratio_resizer resizeModel img100x200 256).1.width = 256 ∧
    (keep_aspect_ratio_resizer resizeModel img100x200 256).2 = (128, 256) := by
  refine ⟨by decide, ?_, ?_, resizeStep_img100x200, by decide, by decide, ?_, ?_, ?_⟩
  · show (256 : ℚ) / ((200 : Nat) : ℚ) = 1.28
    norm_num
  · rw [ceilScale_eq _ _ _ (by decide)]
    decide
  · rw [keep_img100x200]
    rfl
  · rw [keep_img100x200]
    rfl
  · rw [keep_img100x200]

/-- C3: for a person at or above the instance threshold, visualize issues
exactly one circle per keypoint whose score is at least keypoint_threshold
(so a score exactly equal to the threshold is drawn), followed by exactly one
line per table edge whose two endpoint scores strictly exceed
keypoint_threshold (so an edge whose endpoint scores equal the threshold is
not drawn). -/
theorem visualize_threshold_asymmetry (p : Person) (kc : Pixel) (kt inst : ℚ)
    (_h17 : p.keypoints.length = 17) (hs : inst ≤ p.score) :
    visualizeTrace [p] kc kt inst =
      ((p.keypoints.filter fun k => decide (kt ≤ k.score)).map fun k =>
        DrawCmd.circle k.coordinate 2 kc 4) ++
      ((KEYPOINT_EDGE_INDS_TO_COLOR.filter fun ec =>
          decide (kt < (kpAt p.keypoints ec.1.1).score ∧
            kt < (kpAt p.keypoints ec.1.2).score)).map fun ec =>
        DrawCmd.line (kpAt p.keypoints ec.1.1).coordinate
          (kpAt p.keypoints ec.1.2).coordinate ec.2 2) := by
  have hns : ¬ p.score < inst := not_lt.mpr hs
  simp only [visualizeTrace, List.flatMap_cons, List.flatMap_nil,
    List.append_nil, if_neg hns]
  rw [flatMap_if_singleton, flatMap_if_singleton]

/-- Witness for C3: the test person scores 1/2 ≥ 1/10; keypoints 0 and 1 score
exactly the threshold 1/20 and are drawn as circles; every edge, including
(0, 1) whose two endpoints score exactly 1/20, is suppressed. -/
theorem visualize_threshold_asymmetry_witness :
    (1 : ℚ)/10 ≤ testPerson.score ∧ testPerson.keypoints.length = 17 ∧
    visualizeTrace [testPerson] (0, 255, 0) (1/20) (1/10) =
      [DrawCmd.circle (0, 0) 2 (0, 255, 0) 4,
       DrawCmd.circle (1, 1) 2 (0, 255, 0) 4] := by
  refine ⟨by norm_num [testPerson], rfl, ?_⟩
  rw [visualize_threshold_asymmetry testPerson (0, 255, 0) (1/20) (1/10) rfl
    (by norm_num [testPerson])]
  norm_num [testPerson, kp, kpAt, KEYPOINT_EDGE_INDS_TO_COLOR,
    List.filter_cons, decide_eq_true_eq, List.getD]

/-- C4: when every person scores strictly below the instance threshold,
visualize issues no drawing call at all and returns an image equal to its
input, whatever the rasterizers do. -/
theorem visualize_below_instance_noop
    (circleFn : Image → Int × Int → Nat → Pixel → Nat → Image)
    (lineFn : Image → Int × Int → Int × Int → Pixel → Nat → Image)
    (image : Image) (list_persons : List Person) (kc : Pixel) (kt inst : ℚ)
    (h : ∀ p ∈ list_persons, p.score < inst) :
    visualize circleFn lineFn image list_persons kc kt inst = image ∧
    visualizeTrace list_persons kc kt inst = [] := by
  induction list_persons with
  | nil => exact ⟨rfl, rfl⟩
  | cons p ps ih =>
    have hp : p.score < inst := h p (List.mem_cons_self p ps)
    have hrest : ∀ q ∈ ps, q.score < inst := fun q hq => h q (List.mem_cons_of_mem p hq)
    refine ⟨?_, ?_⟩
    · simp only [visualize, List.foldl_cons, if_pos hp]
      exact (ih hrest).1
    · simp only [visualizeTrace, List.flatMap_cons, if_pos hp, List.nil_append]
      exact (ih hrest).2

/-- Witness for C4: a single person scoring 1/20, below the default instance
threshold 1/10, leaves the 1 by 1 test image untouched and draws nothing. -/
theorem visualize_below_instance_noop_witness :
    lowPerson.score < (1 : ℚ)/10 ∧
    visualize drawCircleModel drawLineModel testImage1 [lowPerson]
      (0, 255, 0) (1/20) (1/10) = testImage1 ∧
    visualizeTrace [lowPerson] (0, 255, 0) (1/20) (1/10) = [] := by
  have h := visualize_below_instance_noop drawCircleModel drawLineModel
    testImage1 [lowPerson] (0, 255, 0) (1/20) (1/10)
    (fun p hp => by
      rw [List.mem_singleton] at hp
      subst hp
      norm_num [lowPerson])
  exact ⟨by norm_num [lowPerson], h.1, h.2⟩

/-- C9: on an empty persons list, visualize returns exactly the image it was
given and issues no drawing call. -/
theorem visualize_empty_noop
    (circleFn : Image → Int × Int → Nat → Pixel → Nat → Image)
    (lineFn : Image → Int × Int → Int × Int → Pixel → Nat → Image)
    (image : Image) (kc : Pixel) (kt inst : ℚ) :
    visualize circleFn lineFn image [] kc kt inst = image ∧
    visualizeTrace [] kc kt inst = [] := ⟨rfl, rfl⟩

/-- Witness for C9 at the concrete rasterizer models and test image. -/
theorem visualize_empty_noop_witness :
    visualize drawCircleModel drawLineModel testImage1 []
      (0, 255, 0) (1/20) (1/10) = testImage1 ∧
    visualizeTrace [] (0, 255, 0) (1/20) (1/10) = [] :=
  visualize_empty_noop drawCircleModel drawLineModel testImage1
    (0, 255, 0) (1/20) (1/10)

/-- C8: the edge color table has exactly 18 entries and every index of every
key pair lies in 0..16, the valid positions of a 17-keypoint sequence. As a
top-level Lean constant (like the module-level Python dict, which no function
in the source ever writes to), it is immutable by construction. -/
theorem edge_table_wellformed :
    KEYPOINT_EDGE_INDS_TO_COLOR.length = 18 ∧
    (KEYPOINT_EDGE_INDS_TO_COLOR.all fun ec =>
      decide (ec.1.1 ≤ 16) && decide (ec.1.2 ≤ 16)) = true := by
  decide

/-- C5: the padded output reaches exactly (target_height, target_width) by
adding target_height - resized_height rows at the bottom and
target_width - resized_width columns at the right only: the content region
keeps the resized pixels at unshifted coordinates (zero top and left padding)
and every pixel below or to the right of the content region is zero
(black). -/
theorem resizer_pad_bottom_right_zero (resize : Image → Nat → Nat → Image)
    (hr : ResizeSpec resize) (image : Image) (t : Nat)
    (_hh : 0 < image.height) (_hw : 0 < image.width) (_ht : 0 < t) :
    (keep_aspect_ratio_resizer resize image t).1.height =
      (resizeStep resize image t).2.1 ∧
    (keep_aspect_ratio_resizer resize image t).1.width =
      (resizeStep resize image t).2.2 ∧
    (keep_aspect_ratio_resizer resize image t).1.height =
      (resizeStep resize image t).1.height +
        ((resizeStep resize image t).2.1 - (resizeStep resize image t).1.height) ∧
    (keep_aspect_ratio_resizer resize image t).1.width =
      (resizeStep resize image t).1.width +
        ((resizeStep resize image t).2.2 - (resizeStep resize image t).1.width) ∧
    (∀ r c, r < (resizeStep resize image t).1.height →
      c < (resizeStep resize image t).1.width →
      (keep_aspect_ratio_resizer resize image t).1.pixel r c =
        (resizeStep resize image t).1.pixel r c) ∧
    (∀ r c, (resizeStep resize image t).1.height ≤ r ∨
        (resizeStep resize image t).1.width ≤ c →
      (keep_aspect_ratio_resizer resize image t).1.pixel r c = (0, 0, 0)) := by
  refine ⟨keep_height resize hr image t, keep_width resize hr image t, ?_, ?_, ?_, ?_⟩
  · rw [keep_fst]
    show (resizeStep resize image t).1.height + 0 + _ = _
    omega
  · rw [keep_fst]
    show (resizeStep resize image t).1.width + 0 + _ = _
    omega
  · intro r c h1 h2
    rw [keep_fst]
    simp only [copyMakeBorder]
    rw [if_pos ⟨Nat.zero_le r, by omega, Nat.zero_le c, by omega⟩]
    simp
  · intro r c hor
    rw [keep_fst]
    simp only [copyMakeBorder]
    rw [if_neg]
    intro hcond
    obtain ⟨-, h1, -, h2⟩ := hcond
    omega

/-- Witness for C5 at the 1 by 1 image with target_size 1: the content pixel
(0, 0) is preserved and the bottom padding pixel (5, 0) is black. -/
theorem resizer_pad_bottom_right_zero_witness :
    0 < testImage1.height ∧ 0 < testImage1.width ∧ (0 : Nat) < 1 ∧
    (keep_aspect_ratio_resizer resizeModel testImage1 1).1.pixel 0 0 =
      (resizeStep resizeModel testImage1 1).1.pixel 0 0 ∧
    (keep_aspect_ratio_resizer resizeModel testImage1 1).1.pixel 5 0 = (0, 0, 0) := by
  have h := resizer_pad_bottom_right_zero resizeModel resizeModel_spec testImage1 1
    (by decide) (by decide) (by decide)
  refine ⟨by decide, by decide, by decide, h.2.2.2.2.1 0 0 ?_ ?_, h.2.2.2.2.2 5 0 ?_⟩
  · rw [resizeStep_testImage1]
    decide
  · rw [resizeStep_testImage1]
    decide
  · refine Or.inl ?_
    rw [resizeStep_testImage1]
    decide

/-- C7: in the allocation-level model, keep_aspect_ratio_resizer never writes
to the buffer of the caller: after the call the input address still holds exactly
the original image, the returned address holds the value of the pure function,
and the returned size tuple agrees with the pure function. -/
theorem resizer_no_input_mutation (resize : Image → Nat → Nat → Image)
    (h : Heap) (a t : Nat) (ha : a < h.length) :
    heapGet (keep_aspect_ratio_resizer_heap resize h a t).1 a = heapGet h a ∧
    heapGet (keep_aspect_ratio_resizer_heap resize h a t).1
      (keep_aspect_ratio_resizer_heap resize h a t).2.1 =
      (keep_aspect_ratio_resizer resize (heapGet h a) t).1 ∧
    ((keep_aspect_ratio_resizer_heap resize h a t).2.2.1,
      (keep_aspect_ratio_resizer_heap resize h a t).2.2.2) =
      (keep_aspect_ratio_resizer resize (heapGet h a) t).2 := by
  have hres : heapGet (h ++ [(resizeStep resize (heapGet h a) t).1]) h.length =
      (resizeStep resize (heapGet h a) t).1 :=
    heapGet_append_len h _
  have e1 : keep_aspect_ratio_resizer_heap resize h a t =
      ((h ++ [(resizeStep resize (heapGet h a) t).1]) ++
        [copyMakeBorder (heapGet (h ++ [(resizeStep resize (heapGet h a) t).1]) h.length)
          0 ((resizeStep resize (heapGet h a) t).2.1 -
            (heapGet (h ++ [(resizeStep resize (heapGet h a) t).1]) h.length).height)
          0 ((resizeStep resize (heapGet h a) t).2.2 -
            (heapGet (h ++ [(resizeStep resize (heapGet h a) t).1]) h.length).width)],
       (h ++ [(resizeStep resize (heapGet h a) t).1]).length,
       (resizeStep resize (heapGet h a) t).2.1,
       (resizeStep resize (heapGet h a) t).2.2) := rfl
  rw [e1, hres]
  have ha1 : a < (h ++ [(resizeStep resize (heapGet h a) t).1]).length := by
    rw [List.length_append]
    omega
  refine ⟨?_, ?_, rfl⟩
  · rw [heapGet_append_lt _ _ _ ha1, heapGet_append_lt _ _ _ ha]
  · rw [heapGet_append_len, keep_fst]

/-- Witness for C7: a one-buffer heap holding the 100 by 200 image; after the
call address 0 still holds that image. -/
theorem resizer_no_input_mutation_witness :
    (0 : Nat) < ([img100x200] : Heap).length ∧
    heapGet (keep_aspect_ratio_resizer_heap resizeModel [img100x200] 0 256).1 0 =
      heapGet [img100x200] 0 := by
  have h := resizer_no_input_mutation resizeModel [img100x200] 0 256 (by decide)
  exact ⟨by decide, h.1⟩

end PoseUtils
